import Mathlib

/-!
Verification of the structured-extraction logic of the atlas repository
(`src/atlas/hermes.py` and `src/atlas/serve.py`).

The embedding models:
- the JSON values produced by Python's `json.loads` (type `Json` and the
  executable recogniser `json_loads`, a fuel-based recursive descent over
  the character list, matching CPython's default decoder: the four JSON
  whitespace characters between tokens, strict strings - unescaped control
  characters rejected - with the standard escapes and `\uXXXX` including
  surrogate pairs, numbers with no leading zeros, and the CPython extras
  `NaN`, `Infinity`, `-Infinity`);
- the two regular-expression span scans used by the code,
  `re.search(r'\[[\s\S]*\]', s)` (function `bracketSearch`) and
  `re.search(r'\{[^}]+\}', s)` (function `braceSearch`), as direct
  leftmost-match scans;
- the prompt formatters `HermesModel._format_messages` and
  `AtlasModel._format_messages`, and the endpoint handlers
  `parse_message`, `parse_batch` and `parse_intent`.  The inference
  engine (vLLM `generate`) is an external collaborator and is passed in
  as an oracle `llm : String → String` from formatted prompt to raw
  completion text.

Machine integers do not occur; Python strings are modelled as Lean
`String`/`List Char`, dictionaries read through `.get` as structures of
`Option` fields.
-/

/-! ## Characters that the hard-to-quote ASCII punctuation is referred to by -/

def quoteChar : Char := Char.ofNat 34

def backslashChar : Char := Char.ofNat 92

def lbrackChar : Char := Char.ofNat 91

def rbrackChar : Char := Char.ofNat 93

def lbraceChar : Char := Char.ofNat 123

def rbraceChar : Char := Char.ofNat 125

/-! ## JSON values, as produced by Python `json.loads` -/

/-- A value that Python's `json.loads` can return.  Numbers are kept exact
as `mant * 10 ^ exp10` (CPython returns `int` or `float`; no claim below
depends on floating-point rounding, so the decimal value is kept
symbolically).  `nan`, `inf` and `negInf` model CPython's acceptance of
the non-standard constants `NaN`, `Infinity` and `-Infinity`. -/
inductive Json where
  | null
  | bool (b : Bool)
  | num (mant : Int) (exp10 : Int)
  | str (s : String)
  | arr (elems : List Json)
  | obj (fields : List (String × Json))
  | nan
  | inf
  | negInf

/-- The four whitespace characters the JSON grammar allows between tokens. -/
def jsonWs (c : Char) : Bool :=
  c = ' ' || c = Char.ofNat 9 || c = Char.ofNat 10 || c = Char.ofNat 13

def skipWs : List Char → List Char
  | [] => []
  | c :: rest => if jsonWs c then skipWs rest else c :: rest

def hexVal (c : Char) : Option Nat :=
  if '0' ≤ c ∧ c ≤ '9' then some (c.toNat - 48)
  else if 'a' ≤ c ∧ c ≤ 'f' then some (c.toNat - 87)
  else if 'A' ≤ c ∧ c ≤ 'F' then some (c.toNat - 55)
  else none

/-- Body of a JSON string literal, after the opening quote: returns the
decoded characters and the remainder after the closing quote.  Matches
CPython's strict decoder: unescaped control characters (codepoints below
0x20) are rejected, the eight short escapes and `\uXXXX` are accepted,
and a high/low `\u` surrogate pair is combined into one scalar.  (A lone
surrogate, which CPython keeps as a lone surrogate code unit, is mapped
through `Char.ofNat`, which collapses it to NUL - Lean characters are
scalar values; no claim below depends on that corner.) -/
def parseStringBody : List Char → Option (List Char × List Char)
  | [] => none
  | c :: rest =>
    if c = quoteChar then some ([], rest)
    else if c = backslashChar then
      match rest with
      | [] => none
      | e :: rest2 =>
        if e = quoteChar then
          (parseStringBody rest2).map (fun p => (quoteChar :: p.1, p.2))
        else if e = backslashChar then
          (parseStringBody rest2).map (fun p => (backslashChar :: p.1, p.2))
        else if e = '/' then
          (parseStringBody rest2).map (fun p => ('/' :: p.1, p.2))
        else if e = 'b' then
          (parseStringBody rest2).map (fun p => (Char.ofNat 8 :: p.1, p.2))
        else if e = 'f' then
          (parseStringBody rest2).map (fun p => (Char.ofNat 12 :: p.1, p.2))
        else if e = 'n' then
          (parseStringBody rest2).map (fun p => (Char.ofNat 10 :: p.1, p.2))
        else if e = 'r' then
          (parseStringBody rest2).map (fun p => (Char.ofNat 13 :: p.1, p.2))
        else if e = 't' then
          (parseStringBody rest2).map (fun p => (Char.ofNat 9 :: p.1, p.2))
        else if e = 'u' then
          match rest2 with
          | h1 :: h2 :: h3 :: h4 :: rest3 =>
            match hexVal h1, hexVal h2, hexVal h3, hexVal h4 with
            | some d1, some d2, some d3, some d4 =>
              let code := ((d1 * 16 + d2) * 16 + d3) * 16 + d4
              let lone := (parseStringBody rest3).map (fun p => (Char.ofNat code :: p.1, p.2))
              if 0xD800 ≤ code ∧ code ≤ 0xDBFF then
                match rest3 with
                | b :: u :: g1 :: g2 :: g3 :: g4 :: rest4 =>
                  if b = backslashChar ∧ u = 'u' then
                    match hexVal g1, hexVal g2, hexVal g3, hexVal g4 with
                    | some e1, some e2, some e3, some e4 =>
                      let code2 := ((e1 * 16 + e2) * 16 + e3) * 16 + e4
                      if 0xDC00 ≤ code2 ∧ code2 ≤ 0xDFFF then
                        let scalar := 0x10000 + (code - 0xD800) * 0x400 + (code2 - 0xDC00)
                        (parseStringBody rest4).map (fun p => (Char.ofNat scalar :: p.1, p.2))
                      else lone
                    | _, _, _, _ => lone
                  else lone
                | _ => lone
              else lone
            | _, _, _, _ => none
          | _ => none
        else none
    else if c.toNat < 0x20 then none
    else (parseStringBody rest).map (fun p => (c :: p.1, p.2))

def isDigitChar (c : Char) : Bool := '0' ≤ c && c ≤ '9'

/-- Split a leading run of decimal digits off a character list. -/
def splitDigits : List Char → List Char × List Char
  | [] => ([], [])
  | c :: rest =>
    if isDigitChar c then
      let p := splitDigits rest
      (c :: p.1, p.2)
    else ([], c :: rest)

def digitsToNat (ds : List Char) : Nat :=
  ds.foldl (fun a c => a * 10 + (c.toNat - 48)) 0

/-- Optional exponent part of a JSON number; `mds` are the mantissa digits
collected so far and `fracLen` the number of them after the decimal point. -/
def parseExpPart (neg : Bool) (mds : List Char) (fracLen : Nat) (cs : List Char) :
    Option (Json × List Char) :=
  let mant : Int := (if neg then -1 else 1) * (digitsToNat mds : Int)
  match cs with
  | c :: rest =>
    if c = 'e' ∨ c = 'E' then
      let sr : Int × List Char :=
        match rest with
        | s :: r => if s = '+' then (1, r) else if s = '-' then (-1, r) else (1, rest)
        | [] => (1, rest)
      let p := splitDigits sr.2
      if p.1 = [] then none
      else some (Json.num mant (sr.1 * (digitsToNat p.1 : Int) - (fracLen : Int)), p.2)
    else some (Json.num mant (-(fracLen : Int)), c :: rest)
  | [] => some (Json.num mant (-(fracLen : Int)), [])

/-- A JSON number, per the grammar CPython uses:
`-? (0 | [1-9][0-9]*) (\.[0-9]+)? ([eE][-+]?[0-9]+)?`. -/
def parseNumber (cs : List Char) : Option (Json × List Char) :=
  let sgn : Bool × List Char :=
    match cs with
    | c :: rest => if c = '-' then (true, rest) else (false, cs)
    | [] => (false, cs)
  let ip := splitDigits sgn.2
  match ip.1 with
  | [] => none
  | d :: ds =>
    if d = '0' ∧ ds ≠ [] then none
    else
      match ip.2 with
      | '.' :: r1 =>
        let fp := splitDigits r1
        if fp.1 = [] then none
        else parseExpPart sgn.1 (ip.1 ++ fp.1) fp.1.length fp.2
      | r1 => parseExpPart sgn.1 ip.1 0 r1

mutual

/-- One JSON value (fuel-based recursive descent; `json_loads` supplies
enough fuel that it never runs out on its input).  Leading whitespace is
skipped; the remainder after the value is returned. -/
def parseVal : Nat → List Char → Option (Json × List Char)
  | 0, _ => none
  | fuel + 1, cs =>
    match skipWs cs with
    | [] => none
    | c :: rest =>
      if c = quoteChar then
        match parseStringBody rest with
        | some (content, r) => some (Json.str (String.mk content), r)
        | none => none
      else if c = lbrackChar then
        match skipWs rest with
        | d :: r2 =>
          if d = rbrackChar then some (Json.arr [], r2)
          else
            match parseArrItems fuel (d :: r2) with
            | some (xs, r3) => some (Json.arr xs, r3)
            | none => none
        | [] => none
      else if c = lbraceChar then
        match skipWs rest with
        | d :: r2 =>
          if d = rbraceChar then some (Json.obj [], r2)
          else
            match parseObjItems fuel (d :: r2) with
            | some (fs, r3) => some (Json.obj fs, r3)
            | none => none
        | [] => none
      else if c = 't' then
        match rest with
        | 'r' :: 'u' :: 'e' :: r => some (Json.bool true, r)
        | _ => none
      else if c = 'f' then
        match rest with
        | 'a' :: 'l' :: 's' :: 'e' :: r => some (Json.bool false, r)
        | _ => none
      else if c = 'n' then
        match rest with
        | 'u' :: 'l' :: 'l' :: r => some (Json.null, r)
        | _ => none
      else if c = 'N' then
        match rest with
        | 'a' :: 'N' :: r => some (Json.nan, r)
        | _ => none
      else if c = 'I' then
        match rest with
        | 'n' :: 'f' :: 'i' :: 'n' :: 'i' :: 't' :: 'y' :: r => some (Json.inf, r)
        | _ => none
      else if c = '-' ∧ rest.head? = some 'I' then
        match rest with
        | 'I' :: 'n' :: 'f' :: 'i' :: 'n' :: 'i' :: 't' :: 'y' :: r => some (Json.negInf, r)
        | _ => none
      else parseNumber (c :: rest)

/-- Comma-separated array items up to and including the closing bracket
(called with at least one item pending; an empty array and a trailing
comma are handled by the caller and rejected respectively, as CPython
rejects a trailing comma). -/
def parseArrItems : Nat → List Char → Option (List Json × List Char)
  | 0, _ => none
  | fuel + 1, cs =>
    match parseVal fuel cs with
    | some (v, r) =>
      match skipWs r with
      | c :: r2 =>
        if c = ',' then
          match parseArrItems fuel r2 with
          | some (xs, r3) => some (v :: xs, r3)
          | none => none
        else if c = rbrackChar then some ([v], r2)
        else none
      | [] => none
    | none => none

/-- Comma-separated `"key": value` object members up to and including the
closing brace (at least one member pending). -/
def parseObjItems : Nat → List Char → Option (List (String × Json) × List Char)
  | 0, _ => none
  | fuel + 1, cs =>
    match skipWs cs with
    | c :: rest =>
      if c = quoteChar then
        match parseStringBody rest with
        | some (key, r1) =>
          match skipWs r1 with
          | ':' :: r2 =>
            match parseVal fuel r2 with
            | some (v, r3) =>
              match skipWs r3 with
              | d :: r4 =>
                if d = ',' then
                  match parseObjItems fuel r4 with
                  | some (fs, r5) => some ((String.mk key, v) :: fs, r5)
                  | none => none
                else if d = rbraceChar then some ([(String.mk key, v)], r4)
                else none
              | [] => none
            | none => none
          | _ => none
        | none => none
      else none
    | [] => none

end

/-- Python `json.loads` on a `str`: exactly one JSON value, optionally
surrounded by JSON whitespace; `none` models a raised
`json.JSONDecodeError`.  The fuel `2 * length + 4` dominates the depth of
the descent (at least one character is consumed between every other
recursive call), so the fuel never runs out. -/
def json_loads (s : String) : Option Json :=
  match parseVal (2 * s.data.length + 4) s.data with
  | some (v, rest) => if skipWs rest = [] then some v else none
  | none => none

/-! ## The two regular-expression span scans -/

def firstIdxOf (a : Char) : List Char → Option Nat
  | [] => none
  | c :: rest => if c = a then some 0 else (firstIdxOf a rest).map (· + 1)

def lastIdxOf (a : Char) : List Char → Option Nat
  | [] => none
  | c :: rest =>
    match lastIdxOf a rest with
    | some k => some (k + 1)
    | none => if c = a then some 0 else none

/-- Embeds `re.search(r'\[[\s\S]*\]', s)` (hermes.py line 101) and returns
the matched substring.  The leftmost match of this pattern starts at the
first opening bracket that has a closing bracket somewhere after it, and
greedy `[\s\S]*` extends it to the last closing bracket of the text; if
the first opening bracket has no closing bracket after it then no later
one has either, so the scan fails. -/
def bracketSearch : List Char → Option (List Char)
  | [] => none
  | c :: rest =>
    if c = lbrackChar then
      match lastIdxOf rbrackChar rest with
      | some k => some (lbrackChar :: rest.take (k + 1))
      | none => none
    else bracketSearch rest

/-- Embeds `re.search(r'\{[^}]+\}', s)` (serve.py line 241) and returns the
matched substring.  A match starting at an opening brace requires at least
one following non-closing-brace character (`[^}]+`) and then the first
closing brace; when the character right after an opening brace is a
closing brace the scan moves on to the next start position, so the
two-character span of an empty object never matches. -/
def braceSearch : List Char → Option (List Char)
  | [] => none
  | c :: rest =>
    if c = lbraceChar then
      match firstIdxOf rbraceChar rest with
      | some k =>
        if 1 ≤ k then some (lbraceChar :: rest.take (k + 1)) else braceSearch rest
      | none => none
    else braceSearch rest

/-! ## Python string helpers -/

/-- The ASCII characters Python `str.strip()` removes (it also removes the
non-ASCII Unicode spaces, which never border the completions modelled in
the theorems below). -/
def pyIsStripSpace (c : Char) : Bool :=
  c = ' ' || c = Char.ofNat 9 || c = Char.ofNat 10 || c = Char.ofNat 13 ||
    c = Char.ofNat 11 || c = Char.ofNat 12

/-- Python `str.strip()`. -/
def pyStrip (s : String) : String :=
  String.mk (((s.data.dropWhile pyIsStripSpace).reverse.dropWhile pyIsStripSpace).reverse)

/-! ## Messages and the two prompt formatters -/

/-- A Python message dict as the formatters read it: the `role` and
`content` keys, each possibly absent (`msg.get("role", "user")`,
`msg.get("content", "")`). -/
structure PyMsg where
  role : Option String
  content : Option String

/-- HermesModel._format_messages (hermes.py lines 67-82): ChatML rendering
with a trailing open assistant marker; unrecognized roles contribute
nothing. -/
def hermesFormatMessages (messages : List PyMsg) : String :=
  let formatted := messages.foldl
    (fun formatted msg =>
      let role := msg.role.getD "user"
      let content := msg.content.getD ""
      if role = "system" then
        formatted ++ ("<|im_start|>system\n" ++ content ++ "<|im_end|>\n")
      else if role = "user" then
        formatted ++ ("<|im_start|>user\n" ++ content ++ "<|im_end|>\n")
      else if role = "assistant" then
        formatted ++ ("<|im_start|>assistant\n" ++ content ++ "<|im_end|>\n")
      else formatted)
    ""
  formatted ++ "<|im_start|>assistant\n"

/-- AtlasModel._format_messages (serve.py lines 122-138), a verbatim copy
of the Hermes formatter in the source. -/
def atlasFormatMessages (messages : List PyMsg) : String :=
  let formatted := messages.foldl
    (fun formatted msg =>
      let role := msg.role.getD "user"
      let content := msg.content.getD ""
      if role = "system" then
        formatted ++ ("<|im_start|>system\n" ++ content ++ "<|im_end|>\n")
      else if role = "user" then
        formatted ++ ("<|im_start|>user\n" ++ content ++ "<|im_end|>\n")
      else if role = "assistant" then
        formatted ++ ("<|im_start|>assistant\n" ++ content ++ "<|im_end|>\n")
      else formatted)
    ""
  formatted ++ "<|im_start|>assistant\n"

/-- The role-delimited block one recognized turn contributes to the
formatted prompt. -/
def turnBlock (m : PyMsg) : String :=
  "<|im_start|>" ++ m.role.getD "user" ++ "\n" ++ m.content.getD "" ++ "<|im_end|>\n"

/-- Concatenation of the blocks of a turn sequence, in input order. -/
def concatBlocks : List PyMsg → String
  | [] => ""
  | m :: ms => turnBlock m ++ concatBlocks ms

/-! ## The Hermes extraction pipeline and endpoints (hermes.py) -/

/-- SYSTEM_PROMPT of hermes.py (lines 21-33). -/
def HERMES_SYSTEM_PROMPT : String :=
  "Sen Hermes, WhatsApp lojistik mesaj ayrıştırıcısısın.\n\n" ++
  "Her mesajda BİRDEN FAZLA yük olabilir. Her yükü ayrı ayrı çıkar.\n\n" ++
  "Her yük için:\n" ++
  "- origin: Yükleme şehri/ilçesi\n" ++
  "- destination: Teslim şehri/ilçesi\n" ++
  "- weight: Tonaj (kg veya ton olarak)\n" ++
  "- vehicle_type: TIR/KAMYON/KAMYONET\n" ++
  "- body_type: ACIK/KAPALI/TENTELI/DAMPERLI\n" ++
  "- phone: Telefon numarası\n\n" ++
  "SADECE JSON array döndür. Başka açıklama yazma."

/-- The extraction step of HermesModel._parse_internal (hermes.py lines
98-107): search for the bracket span, `json.loads` it, and fall back to
the empty list silently (the code catches `json.JSONDecodeError` and
falls through to `return []`; with no span it also returns `[]`).  A
span found by `bracketSearch` begins with an opening bracket, and a
complete JSON value beginning with an opening bracket is an array, so
the non-array success branch below is unreachable. -/
def extractJobs (response : String) : List Json :=
  match bracketSearch response.data with
  | some span =>
    match json_loads (String.mk span) with
    | some (Json.arr xs) => xs
    | some _ => []
    | none => []
  | none => []

/-- HermesModel._parse_internal (hermes.py lines 84-107).  `llm` is the
external vLLM engine, mapping the formatted prompt to the raw completion
text (`outputs[0].outputs[0].text`); the code strips it and extracts. -/
def parse_internal (llm : String → String) (raw_text : String) : List Json :=
  let messages : List PyMsg :=
    [⟨some "system", some HERMES_SYSTEM_PROMPT⟩, ⟨some "user", some raw_text⟩]
  let prompt := hermesFormatMessages messages
  let response := pyStrip (llm prompt)
  extractJobs response

/-- Request body of the parse_message endpoint, read through
`request.get("message", "")`. -/
structure MsgRequest where
  message : Option String

/-- Response of parse_message: either the validation-error dict
`(error, jobs)` or the success dict `(success, jobs, count)`. -/
inductive MsgResponse where
  | err (error : String) (jobs : List Json)
  | ok (success : Bool) (jobs : List Json) (count : Nat)

/-- HermesModel.parse_message (hermes.py lines 114-128). -/
def parse_message (llm : String → String) (request : MsgRequest) : MsgResponse :=
  let raw_text := request.message.getD ""
  if raw_text = "" then MsgResponse.err "No message provided" []
  else
    let jobs := parse_internal llm raw_text
    MsgResponse.ok true jobs jobs.length

/-- Request body of the parse_batch endpoint, read through
`request.get("messages", [])`. -/
structure BatchRequest where
  messages : Option (List String)

/-- One element of the parse_batch results list. -/
structure BatchItem where
  message : String
  jobs : List Json
  count : Nat

/-- Response of parse_batch: the validation-error dict or the success dict
`(success, results, total_jobs)`. -/
inductive BatchResponse where
  | err (error : String) (results : List BatchItem)
  | ok (success : Bool) (results : List BatchItem) (total_jobs : Nat)

/-- HermesModel.parse_batch (hermes.py lines 130-147): one result per
message in input order, `total_jobs` summed over the result counts. -/
def parse_batch (llm : String → String) (request : BatchRequest) : BatchResponse :=
  let messages := request.messages.getD []
  if messages = [] then BatchResponse.err "No messages provided" []
  else
    let results := messages.map (fun msg =>
      let jobs := parse_internal llm msg
      BatchItem.mk msg jobs jobs.length)
    BatchResponse.ok true results (results.map BatchItem.count).sum

/-! ## The Atlas intent extraction pipeline (serve.py parse_intent) -/

/-- The system prompt built inside AtlasModel.parse_intent (serve.py lines
177-212). -/
def INTENT_SYSTEM_PROMPT : String :=
  "Sen Patron yük asistanısın. Mesajı analiz et ve JSON döndür.\n\n" ++
  "INTENT TİPLERİ:\n" ++
  "- search = yük arıyor (şehir adı var)\n" ++
  "- pagination = devam, daha fazla, sonraki\n" ++
  "- intra_city = şehir içi (istanbul içi)\n" ++
  "- greeting = merhaba, selam, sa, günaydın\n" ++
  "- goodbye = görüşürüz, bye, hoşçakal, bb, hadi eyvallah\n" ++
  "- thanks = teşekkürler, sağol, eyvallah, tamam teşekkür\n" ++
  "- bot_identity = sen kimsin, bot musun, gerçek mi\n" ++
  "- help = nasıl kullanılır, yardım, örnek\n" ++
  "- pricing = ücretli mi, kaç para, fiyat\n" ++
  "- subscription = premium, abone, üyelik\n" ++
  "- support = destek, şikayet, sorun var\n" ++
  "- phone_question = telefon neden yok, numara\n" ++
  "- load_price = navlun, yük fiyatı neden yok\n" ++
  "- freshness = ne zaman güncelleniyor, taze mi\n" ++
  "- vehicle_info = bende tır var, kamyonum var\n" ++
  "- location_info = istanbul\x27dayım, buradayım\n" ++
  "- feedback_positive = güzel, süper, işe yarıyor\n" ++
  "- feedback_negative = kötü, berbat, işe yaramıyor\n" ++
  "- confirmation = tamam, evet, ok\n" ++
  "- negation = hayır, istemiyorum\n" ++
  "- abuse = küfür, hakaret (orospu, piç, siktir)\n" ++
  "- spam = bot mesajı, \"bunun hakkında daha fazla bilgi\"\n" ++
  "- international = yurtdışı (irak, iran, avrupa, bulgaristan, gürcistan, rusya, polonya)\n" ++
  "- other = alakasız (kız arkadaş, hava durumu, vs)\n\n" ++
  "KONUM KURALLARI:\n" ++
  "- \"X\x27e gitmek istiyorum, Y\x27deyim\" → origin:Y, destination:X\n" ++
  "- \"X\x27den Y\x27ye\" → origin:X, destination:Y\n" ++
  "- \"X Y\" (iki şehir) → origin:X, destination:Y\n" ++
  "- \"X içi\" → origin:X, destination:X, intent:intra_city\n\n" ++
  "SADECE JSON, başka bir şey yazma:\n" ++
  "\x7b\"intent\":\"...\",\"origin\":null,\"destination\":null,\"vehicle_type\":null,\"cargo_type\":null\x7d"

/-- Python `dict.get` on an object decoded by `json.loads`: with duplicate
keys the decoder keeps the last occurrence, so the lookup folds left and
the last binding wins. -/
def objGet (fs : List (String × Json)) (k : String) : Option Json :=
  fs.foldl (fun acc p => if p.1 = k then some p.2 else acc) none

/-- The response dict parse_intent returns after extraction (both the
success shape of serve.py lines 244-252 and the fallback shape of lines
257-265): `success`, `origin`, `destination`, `intent`, `vehicle_type`,
`cargo_type`, `raw_response`.  A Python `None` is `Json.null`. -/
structure IntentResult where
  success : Bool
  origin : Json
  destination : Json
  intent : Json
  vehicle_type : Json
  cargo_type : Json
  raw_response : String

/-- The fallback value of serve.py lines 257-265: `success: False`,
`intent: "other"`, all other extracted fields `None`, the raw completion
preserved. -/
def fallbackIntent (response : String) : IntentResult :=
  ⟨false, Json.null, Json.null, Json.str "other", Json.null, Json.null, response⟩

/-- The extraction step of AtlasModel.parse_intent (serve.py lines
238-265): search for the brace span, `json.loads` it, read the five
fields through `dict.get` (with `"search"` as the default intent), and on
any failure return the fallback (the code catches `json.JSONDecodeError`
and falls through).  A span found by `braceSearch` begins with an opening
brace, and a complete JSON value beginning with an opening brace is an
object, so the non-object success branch below is unreachable. -/
def parseIntentExtract (response : String) : IntentResult :=
  match braceSearch response.data with
  | some span =>
    match json_loads (String.mk span) with
    | some (Json.obj fs) =>
      ⟨true,
        (objGet fs "origin").getD Json.null,
        (objGet fs "destination").getD Json.null,
        (objGet fs "intent").getD (Json.str "search"),
        (objGet fs "vehicle_type").getD Json.null,
        (objGet fs "cargo_type").getD Json.null,
        response⟩
    | some _ => fallbackIntent response
    | none => fallbackIntent response
  | none => fallbackIntent response

/-- Request body of the parse_intent endpoint, read through
`request.get("message", "")` and `request.get("history", [])`. -/
structure IntentRequest where
  message : Option String
  history : Option (List PyMsg)

/-- Response of parse_intent: the validation-error dict or the extraction
result dict. -/
inductive IntentResponse where
  | err (error : String)
  | ok (result : IntentResult)

/-- Python list slice `l[-4:]`: the last four elements, or all of them
when there are fewer than four. -/
def pySliceLast4 {α : Type} (l : List α) : List α :=
  l.drop (l.length - 4)

/-- The message dict for the system role built by parse_intent. -/
def sysIntentMsg : PyMsg := ⟨some "system", some INTENT_SYSTEM_PROMPT⟩

/-- The message dict for the user role with the given content. -/
def userMsg (content : String) : PyMsg := ⟨some "user", some content⟩

/-- The conversation parse_intent sends to the model (serve.py lines
214-220): the system prompt, then `history[-4:]`, then the user message. -/
def parseIntentMessages (user_message : String) (history : List PyMsg) : List PyMsg :=
  sysIntentMsg :: (pySliceLast4 history ++ [userMsg user_message])

/-- AtlasModel.parse_intent (serve.py lines 164-265).  `llm` is the
external vLLM engine from formatted prompt to completion text (the
dedicated low-temperature sampling parameters are generation
configuration of that external engine). -/
def parse_intent (llm : String → String) (request : IntentRequest) : IntentResponse :=
  let user_message := request.message.getD ""
  let conversation_history := request.history.getD []
  if user_message = "" then IntentResponse.err "No message provided"
  else
    let prompt := atlasFormatMessages (parseIntentMessages user_message conversation_history)
    let response := pyStrip (llm prompt)
    IntentResponse.ok (parseIntentExtract response)

/-! ## Concrete oracles and inputs used by the witnesses -/

/-- A concrete stand-in completion engine that always answers with one
well-formed job array. -/
def demoLLM : String → String :=
  fun _ => "[\x7b\"origin\": \"Ankara\"\x7d]"

/-- A concrete stand-in completion engine that answers with prose
containing no JSON. -/
def proseLLM : String → String :=
  fun _ => "tamam, not ettim"

/-- A concrete six-turn history used by the truncation witness. -/
def histSix : List PyMsg :=
  [⟨some "user", some "m0"⟩, ⟨some "assistant", some "m1"⟩, ⟨some "user", some "m2"⟩,
   ⟨some "assistant", some "m3"⟩, ⟨some "user", some "m4"⟩, ⟨some "assistant", some "m5"⟩]

/-- The six field names of the ExtractedJob shape the spec describes. -/
def extractedJobFields : List String :=
  ["origin", "destination", "weight", "vehicle_type", "body_type", "phone"]

/-- Whether a parsed element is an object all of whose fields lie in the
ExtractedJob shape (what coercion into that shape would have to produce). -/
def isJobShaped : Json → Bool
  | Json.obj fs => fs.all (fun p => extractedJobFields.contains p.1)
  | _ => false

/-! ## Helper lemmas about the index scans -/

theorem lastIdxOf_eq_none_of_not_mem (a : Char) (l : List Char) (h : a ∉ l) :
    lastIdxOf a l = none := by
  induction l with
  | nil => rfl
  | cons c rest ih =>
    have hc : ¬c = a := fun hca => h (hca ▸ List.mem_cons_self c rest)
    have hr : a ∉ rest := fun hm => h (List.mem_cons_of_mem c hm)
    simp [lastIdxOf, ih hr, hc]

theorem lastIdxOf_append_of_not_mem (a : Char) (u v : List Char) (hv : a ∉ v) :
    lastIdxOf a (u ++ a :: v) = some u.length := by
  induction u with
  | nil => simp [lastIdxOf, lastIdxOf_eq_none_of_not_mem a v hv]
  | cons c u' ih => simp [lastIdxOf, ih]

theorem lastIdxOf_eq_some_split (a : Char) (l : List Char) (k : Nat)
    (h : lastIdxOf a l = some k) : ∃ u v, l = u ++ a :: v := by
  induction l generalizing k with
  | nil => simp [lastIdxOf] at h
  | cons c rest ih =>
    rw [lastIdxOf] at h
    match hr : lastIdxOf a rest with
    | some k' =>
      obtain ⟨u, v, huv⟩ := ih k' hr
      exact ⟨c :: u, v, by simp [huv]⟩
    | none =>
      rw [hr] at h
      by_cases hc : c = a
      · exact ⟨[], rest, by simp [hc]⟩
      · simp [hc] at h

theorem firstIdxOf_eq_some_split (a : Char) (l : List Char) (k : Nat)
    (h : firstIdxOf a l = some k) : ∃ u v, l = u ++ a :: v ∧ u.length = k ∧ a ∉ u := by
  induction l generalizing k with
  | nil => simp [firstIdxOf] at h
  | cons c rest ih =>
    rw [firstIdxOf] at h
    by_cases hc : c = a
    · simp [hc] at h
      exact ⟨[], rest, by simp [hc], by simp [h], by simp⟩
    · simp [hc] at h
      obtain ⟨k', hk', hkk⟩ := h
      obtain ⟨u, v, huv, hlen, hnm⟩ := ih k' hk'
      exact ⟨c :: u, v, by simp [huv], by simp [hlen, hkk], by
        simp only [List.mem_cons, not_or]
        exact ⟨fun hca => hc hca.symm, hnm⟩⟩

theorem take_len_succ_append (l r : List Char) (a : Char) :
    List.take (l.length + 1) (l ++ a :: r) = l ++ [a] := by
  induction l with
  | nil => simp
  | cons c l' ih =>
    simp only [List.length_cons, List.cons_append, List.take_succ_cons, ih]

theorem bracketSearch_decomp (pre mid post : List Char) (hpre : lbrackChar ∉ pre)
    (hpost : rbrackChar ∉ post) :
    bracketSearch (pre ++ lbrackChar :: mid ++ rbrackChar :: post) =
      some (lbrackChar :: mid ++ [rbrackChar]) := by
  induction pre with
  | nil =>
    have h1 : lastIdxOf rbrackChar (mid ++ rbrackChar :: post) = some mid.length :=
      lastIdxOf_append_of_not_mem rbrackChar mid post hpost
    simp [bracketSearch, h1, take_len_succ_append]
  | cons c pre' ih =>
    have hc : ¬c = lbrackChar := fun h => hpre (h ▸ List.mem_cons_self c pre')
    have hp : lbrackChar ∉ pre' := fun hm => hpre (List.mem_cons_of_mem c hm)
    simp only [List.cons_append, bracketSearch, if_neg hc]
    exact ih hp

theorem data_mk (l : List Char) : (String.mk l).data = l := rfl

theorem bracketSearch_eq_none (cs : List Char)
    (h : ¬ ∃ pre mid post, cs = pre ++ lbrackChar :: mid ++ rbrackChar :: post) :
    bracketSearch cs = none := by
  induction cs with
  | nil => rfl
  | cons c rest ih =>
    by_cases hc : c = lbrackChar
    · subst hc
      cases hr : lastIdxOf rbrackChar rest with
      | some k =>
        obtain ⟨u, v, huv⟩ := lastIdxOf_eq_some_split rbrackChar rest k hr
        exact absurd ⟨[], u, v, by simp [huv]⟩ h
      | none => simp [bracketSearch, hr]
    · have hrest : ¬ ∃ pre mid post, rest = pre ++ lbrackChar :: mid ++ rbrackChar :: post := by
        rintro ⟨p, m, s, hpm⟩
        exact h ⟨c :: p, m, s, by simp [hpm]⟩
      simp only [bracketSearch, if_neg hc]
      exact ih hrest

/-- C1: for every completion text whose substring from the first opening
bracket to the last closing bracket parses as a JSON array, the array
extraction step of HermesModel._parse_internal returns exactly that
array's parsed elements, unchanged.  The text is presented as
`pre ++ span ++ post` where `pre` holds no opening bracket (so the span
starts at the first one) and `post` holds no closing bracket (so the span
ends at the last one). -/
theorem extractJobs_roundtrip (pre mid post : List Char) (xs : List Json)
    (hpre : lbrackChar ∉ pre) (hpost : rbrackChar ∉ post)
    (hparse : json_loads (String.mk (lbrackChar :: mid ++ [rbrackChar])) = some (Json.arr xs)) :
    extractJobs (String.mk (pre ++ lbrackChar :: mid ++ rbrackChar :: post)) = xs := by
  rw [extractJobs, data_mk, bracketSearch_decomp pre mid post hpre hpost]
  simp only [hparse]

theorem extractJobs_roundtrip_witness :
    extractJobs (String.mk ("Cevap: ".data ++ lbrackChar ::
      ("\x7b\"origin\": \"A\"\x7d".data ++ rbrackChar :: " bitti".data))) =
      [Json.obj [("origin", Json.str "A")]] :=
  extractJobs_roundtrip "Cevap: ".data "\x7b\"origin\": \"A\"\x7d".data " bitti".data
    [Json.obj [("origin", Json.str "A")]] (by decide) (by decide) (by rfl)

/-- C2: for every completion text that either contains no bracketed span at
all, or whose span from the first opening bracket to the last closing
bracket fails to parse as JSON, the array extraction step returns the
empty list.  The embedding is a total function, so no exception can
escape (the code catches `json.JSONDecodeError`, the only error
`json.loads` raises on a string). -/
theorem extractJobs_fallback_empty (t : String)
    (h : (¬ ∃ pre mid post, t.data = pre ++ lbrackChar :: mid ++ rbrackChar :: post) ∨
      ∃ pre mid post, t.data = pre ++ lbrackChar :: mid ++ rbrackChar :: post ∧
        lbrackChar ∉ pre ∧ rbrackChar ∉ post ∧
        json_loads (String.mk (lbrackChar :: mid ++ [rbrackChar])) = none) :
    extractJobs t = [] := by
  rcases h with h | ⟨pre, mid, post, hd, hpre, hpost, hp⟩
  · rw [extractJobs, bracketSearch_eq_none t.data h]
  · rw [extractJobs, hd, bracketSearch_decomp pre mid post hpre hpost]
    simp only [hp]

theorem extractJobs_fallback_empty_witness :
    extractJobs (String.mk ([] ++ lbrackChar :: ("oops".data ++ rbrackChar :: []))) = [] :=
  extractJobs_fallback_empty _
    (Or.inr ⟨[], "oops".data, [], rfl, by decide, by decide, by rfl⟩)

/-- C3: for every completion text in which the brace scan finds no span, or
the found span fails to parse as JSON, the extraction step of
AtlasModel.parse_intent returns exactly the fallback dict
success false, intent "other", all location/vehicle/cargo fields null,
raw_response the completion text; the embedding is total, so no exception
can escape. -/
theorem parseIntentExtract_fallback (response : String)
    (h : braceSearch response.data = none ∨
      ∃ span, braceSearch response.data = some span ∧ json_loads (String.mk span) = none) :
    parseIntentExtract response = ⟨false, Json.null, Json.null, Json.str "other",
      Json.null, Json.null, response⟩ := by
  rcases h with h | ⟨span, hs, hp⟩
  · rw [parseIntentExtract, h]
    rfl
  · rw [parseIntentExtract, hs]
    simp only [hp]
    rfl

theorem parseIntentExtract_fallback_witness :
    parseIntentExtract "tamam, not ettim" = ⟨false, Json.null, Json.null, Json.str "other",
      Json.null, Json.null, "tamam, not ettim"⟩ :=
  parseIntentExtract_fallback "tamam, not ettim" (Or.inl (by rfl))

theorem formatFold : ∀ (msgs : List PyMsg) (acc : String),
    (∀ m ∈ msgs, m.role.getD "user" = "system" ∨ m.role.getD "user" = "user" ∨
      m.role.getD "user" = "assistant") →
    List.foldl
      (fun formatted msg =>
        let role := msg.role.getD "user"
        let content := msg.content.getD ""
        if role = "system" then
          formatted ++ ("<|im_start|>system\n" ++ content ++ "<|im_end|>\n")
        else if role = "user" then
          formatted ++ ("<|im_start|>user\n" ++ content ++ "<|im_end|>\n")
        else if role = "assistant" then
          formatted ++ ("<|im_start|>assistant\n" ++ content ++ "<|im_end|>\n")
        else formatted)
      acc msgs = acc ++ concatBlocks msgs := by
  intro msgs
  induction msgs with
  | nil =>
    intro acc _
    exact (String.append_empty acc).symm
  | cons m ms ih =>
    intro acc h
    have hm := h m (List.mem_cons_self m ms)
    have hms : ∀ x ∈ ms, x.role.getD "user" = "system" ∨ x.role.getD "user" = "user" ∨
        x.role.getD "user" = "assistant" := fun x hx => h x (List.mem_cons_of_mem m hx)
    rw [List.foldl_cons, ih _ hms,
      show concatBlocks (m :: ms) = turnBlock m ++ concatBlocks ms from rfl,
      ← String.append_assoc]
    congr 1
    rcases hm with h1 | h1 | h1
    · show (if m.role.getD "user" = "system" then
          acc ++ ("<|im_start|>system\n" ++ m.content.getD "" ++ "<|im_end|>\n")
        else if m.role.getD "user" = "user" then
          acc ++ ("<|im_start|>user\n" ++ m.content.getD "" ++ "<|im_end|>\n")
        else if m.role.getD "user" = "assistant" then
          acc ++ ("<|im_start|>assistant\n" ++ m.content.getD "" ++ "<|im_end|>\n")
        else acc) = acc ++ turnBlock m
      rw [h1, if_pos rfl, turnBlock, h1,
        show ("<|im_start|>" ++ "system" ++ "\n" : String) = "<|im_start|>system\n" from rfl]
    · show (if m.role.getD "user" = "system" then
          acc ++ ("<|im_start|>system\n" ++ m.content.getD "" ++ "<|im_end|>\n")
        else if m.role.getD "user" = "user" then
          acc ++ ("<|im_start|>user\n" ++ m.content.getD "" ++ "<|im_end|>\n")
        else if m.role.getD "user" = "assistant" then
          acc ++ ("<|im_start|>assistant\n" ++ m.content.getD "" ++ "<|im_end|>\n")
        else acc) = acc ++ turnBlock m
      rw [h1, if_neg (by decide), if_pos rfl, turnBlock, h1,
        show ("<|im_start|>" ++ "user" ++ "\n" : String) = "<|im_start|>user\n" from rfl]
    · show (if m.role.getD "user" = "system" then
          acc ++ ("<|im_start|>system\n" ++ m.content.getD "" ++ "<|im_end|>\n")
        else if m.role.getD "user" = "user" then
          acc ++ ("<|im_start|>user\n" ++ m.content.getD "" ++ "<|im_end|>\n")
        else if m.role.getD "user" = "assistant" then
          acc ++ ("<|im_start|>assistant\n" ++ m.content.getD "" ++ "<|im_end|>\n")
        else acc) = acc ++ turnBlock m
      rw [h1, if_neg (by decide), if_neg (by decide), if_pos rfl, turnBlock, h1,
        show ("<|im_start|>" ++ "assistant" ++ "\n" : String) = "<|im_start|>assistant\n" from rfl]

/-- C4: for every sequence of ConversationTurns (dicts whose role reads as
system, user or assistant), both formatters emit exactly one
role-delimited block per turn, with the turn's verbatim content, in input
order, followed by exactly one opening assistant marker and no closing
marker; the empty sequence yields just the trailing marker. -/
theorem format_messages_structure (msgs : List PyMsg)
    (h : ∀ m ∈ msgs, m.role.getD "user" = "system" ∨ m.role.getD "user" = "user" ∨
      m.role.getD "user" = "assistant") :
    hermesFormatMessages msgs = concatBlocks msgs ++ "<|im_start|>assistant\n" ∧
    atlasFormatMessages msgs = concatBlocks msgs ++ "<|im_start|>assistant\n" := by
  constructor
  · show (List.foldl _ "" msgs : String) ++ "<|im_start|>assistant\n" = _
    rw [formatFold msgs "" h, String.empty_append]
  · show (List.foldl _ "" msgs : String) ++ "<|im_start|>assistant\n" = _
    rw [formatFold msgs "" h, String.empty_append]

theorem format_messages_structure_witness :
    hermesFormatMessages [] = "<|im_start|>assistant\n" ∧
    hermesFormatMessages [⟨some "system", some "S"⟩, ⟨none, some "U"⟩] =
      "<|im_start|>system\nS<|im_end|>\n<|im_start|>user\nU<|im_end|>\n<|im_start|>assistant\n" :=
  ⟨((format_messages_structure [] (by simp)).1).trans (by rfl),
   ((format_messages_structure [⟨some "system", some "S"⟩, ⟨none, some "U"⟩]
      (by decide)).1).trans (by rfl)⟩

/-- C10: the two prompt formatters are extensionally equal: on every list
of message dicts, AtlasModel._format_messages and
HermesModel._format_messages return the same string (the two source
functions are verbatim copies, and so are their embeddings). -/
theorem formatters_extensionally_equal (msgs : List PyMsg) :
    atlasFormatMessages msgs = hermesFormatMessages msgs := rfl

/-- C9: for every request with a non-empty message, the conversation
parse_intent passes to the model is the fixed system prompt, then exactly
the last min 4 (length of history) history turns in their original order
(a suffix of the history), then the user message as the final user turn. -/
theorem parse_intent_history_truncation (llm : String → String) (u : String)
    (hist : List PyMsg) (hu : u ≠ "") :
    parse_intent llm ⟨some u, some hist⟩ =
      IntentResponse.ok (parseIntentExtract (pyStrip (llm (atlasFormatMessages
        (sysIntentMsg :: (hist.drop (hist.length - 4) ++ [userMsg u])))))) ∧
    (hist.drop (hist.length - 4)).length = min 4 hist.length ∧
    hist.drop (hist.length - 4) <:+ hist := by
  refine ⟨?_, ?_, List.drop_suffix _ _⟩
  · rw [parse_intent]
    simp only [Option.getD_some]
    rw [if_neg hu]
    rfl
  · rw [List.length_drop]
    omega

theorem parse_intent_history_truncation_witness :
    parse_intent proseLLM ⟨some "ankara", some histSix⟩ =
      IntentResponse.ok (parseIntentExtract (pyStrip (proseLLM (atlasFormatMessages
        (sysIntentMsg :: (histSix.drop (histSix.length - 4) ++ [userMsg "ankara"])))))) ∧
    (histSix.drop (histSix.length - 4)).length = min 4 histSix.length ∧
    histSix.drop (histSix.length - 4) <:+ histSix :=
  parse_intent_history_truncation proseLLM "ankara" histSix (by decide)

/-- C7: for every non-empty message sequence, parse_batch returns one
result tuple per input message in input order, each carrying the input
message itself, that message's extracted jobs and their count, with
total_jobs the sum of the counts; each tuple depends only on its own
message (the results list is a pointwise map), so one message extracting
no jobs leaves every other result unchanged. -/
theorem parse_batch_structure (llm : String → String) (msgs : List String) (hne : msgs ≠ []) :
    parse_batch llm ⟨some msgs⟩ =
      BatchResponse.ok true
        (msgs.map fun m => BatchItem.mk m (parse_internal llm m) (parse_internal llm m).length)
        ((msgs.map fun m => (parse_internal llm m).length).sum) ∧
    ∀ (i : Nat) (m : String), msgs[i]? = some m →
      (msgs.map fun m => BatchItem.mk m (parse_internal llm m) (parse_internal llm m).length)[i]? =
        some (BatchItem.mk m (parse_internal llm m) (parse_internal llm m).length) := by
  constructor
  · rw [parse_batch]
    simp only [Option.getD_some]
    rw [if_neg hne, List.map_map]
    rfl
  · intro i m hm
    rw [List.getElem?_map, hm]
    rfl

theorem parse_batch_structure_witness :
    parse_batch demoLLM ⟨some ["x", ""]⟩ =
      BatchResponse.ok true
        [⟨"x", [Json.obj [("origin", Json.str "Ankara")]], 1⟩,
         ⟨"", [Json.obj [("origin", Json.str "Ankara")]], 1⟩] 2 :=
  ((parse_batch_structure demoLLM ["x", ""] (by decide)).1).trans (by rfl)

/-- C8: parse_message returns exactly the error dict, independent of the
completion engine (so without invoking the extraction pipeline), when
the message field is absent or empty, and the success dict with the
extracted jobs and their count otherwise. -/
theorem parse_message_validation (llm llm2 : String → String) (req : MsgRequest) :
    (req.message.getD "" = "" →
      parse_message llm req = MsgResponse.err "No message provided" [] ∧
      parse_message llm req = parse_message llm2 req) ∧
    (req.message.getD "" ≠ "" →
      parse_message llm req =
        MsgResponse.ok true (parse_internal llm (req.message.getD ""))
          (parse_internal llm (req.message.getD "")).length) := by
  constructor
  · intro he
    constructor
    · rw [parse_message, if_pos he]
    · rw [parse_message, parse_message, if_pos he, if_pos he]
  · intro hne
    rw [parse_message, if_neg hne]

theorem parse_message_validation_witness :
    parse_message demoLLM ⟨some ""⟩ = MsgResponse.err "No message provided" [] ∧
    parse_message demoLLM ⟨none⟩ = MsgResponse.err "No message provided" [] ∧
    parse_message demoLLM ⟨some "yük var mı"⟩ =
      MsgResponse.ok true [Json.obj [("origin", Json.str "Ankara")]] 1 :=
  ⟨((parse_message_validation demoLLM demoLLM ⟨some ""⟩).1 (by rfl)).1,
   ((parse_message_validation demoLLM demoLLM ⟨none⟩).1 (by rfl)).1,
   ((parse_message_validation demoLLM demoLLM ⟨some "yük var mı"⟩).2 (by decide)).trans (by rfl)⟩

/-- C5 counterexample: for the completion text consisting of exactly the
empty JSON object, the claim predicts that the two-character brace span is
selected and parsed (which would produce a success result with the
default intent); in fact the scan embeds a pattern requiring at least one
character between the braces, so nothing is selected and parse_intent's
extraction step returns the failure fallback. -/
theorem braceSearch_skips_empty_object :
    braceSearch ("\x7b\x7d".data) = none ∧
    parseIntentExtract "\x7b\x7d" = ⟨false, Json.null, Json.null, Json.str "other",
      Json.null, Json.null, "\x7b\x7d"⟩ := ⟨rfl, rfl⟩

/-- C5 amended: the substring parse_intent attempts to parse is the
leftmost match of an opening brace, one or more characters none of which
is a closing brace, and a closing brace: when a span is selected it is an
infix of the text that starts at the earliest possible opening brace,
ends at the first closing brace after that opening brace, and has at
least one character between the braces - in particular the empty object
span is never selected. -/
theorem braceSearch_span_selection (cs sp : List Char) (h : braceSearch cs = some sp) :
    ∃ pre mid post, cs = pre ++ sp ++ post ∧ sp = lbraceChar :: mid ++ [rbraceChar] ∧
      mid ≠ [] ∧ rbraceChar ∉ mid ∧
      ∀ p m s, cs = p ++ (lbraceChar :: m ++ [rbraceChar]) ++ s → m ≠ [] →
        rbraceChar ∉ m → pre.length ≤ p.length := by
  induction cs generalizing sp with
  | nil => simp [braceSearch] at h
  | cons c rest ih =>
    by_cases hc : c = lbraceChar
    · subst hc
      cases hr : firstIdxOf rbraceChar rest with
      | some k =>
        by_cases hk : 1 ≤ k
        · simp only [braceSearch, hr, hk, if_true, Option.some.injEq] at h
          obtain ⟨u, v, huv, hlen, hnm⟩ := firstIdxOf_eq_some_split rbraceChar rest k hr
          subst huv
          subst hlen
          rw [take_len_succ_append] at h
          refine ⟨[], u, v, ?_, h.symm, ?_, hnm, ?_⟩
          · rw [← h]
            simp
          · intro hu
            subst hu
            simp at hk
          · intro p m s _ _ _
            simp
        · simp only [braceSearch, hr, if_neg hk] at h
          obtain ⟨u, v, huv, hlen, _⟩ := firstIdxOf_eq_some_split rbraceChar rest k hr
          have hk0 : k = 0 := by omega
          subst hk0
          have hu : u = [] := List.eq_nil_of_length_eq_zero hlen
          subst hu
          simp only [List.nil_append] at huv
          obtain ⟨pre, mid, post, hcs, hshape, hmne, hmnm, hleft⟩ := ih sp h
          refine ⟨lbraceChar :: pre, mid, post, by simp [hcs], hshape, hmne, hmnm, ?_⟩
          intro p m s hp hm hmn
          cases p with
          | nil =>
            simp only [List.nil_append, List.cons_append, List.cons.injEq] at hp
            cases m with
            | nil => exact absurd rfl hm
            | cons m0 m' =>
              have : m0 = rbraceChar := by
                have := hp.2
                rw [huv] at this
                simp only [List.cons_append] at this
                exact (List.cons.injEq _ _ _ _).mp this.symm |>.1
              exact absurd (this ▸ List.mem_cons_self m0 m') hmn
          | cons p0 p' =>
            simp only [List.cons_append, List.cons.injEq] at hp
            have := hleft p' m s hp.2 hm hmn
            simp only [List.length_cons]
            omega
      | none =>
        rw [show braceSearch (lbraceChar :: rest) = none from by simp [braceSearch, hr]] at h
        exact Option.noConfusion h
    · have hrest : braceSearch rest = some sp := by
        simpa only [braceSearch, if_neg hc] using h
      obtain ⟨pre, mid, post, hcs, hshape, hmne, hmnm, hleft⟩ := ih sp hrest
      refine ⟨c :: pre, mid, post, by simp [hcs], hshape, hmne, hmnm, ?_⟩
      intro p m s hp hm hmn
      cases p with
      | nil =>
        simp only [List.nil_append, List.cons_append, List.cons.injEq] at hp
        exact absurd hp.1 hc
      | cons p0 p' =>
        simp only [List.cons_append, List.cons.injEq] at hp
        have := hleft p' m s hp.2 hm hmn
        simp only [List.length_cons]
        omega

theorem braceSearch_span_selection_witness :
    ∃ pre mid post,
      ("x\x7d y\x7ba\x7d z".data) = pre ++ ("\x7ba\x7d".data) ++ post ∧
      ("\x7ba\x7d".data) = lbraceChar :: mid ++ [rbraceChar] ∧
      mid ≠ [] ∧ rbraceChar ∉ mid ∧
      ∀ p m s, ("x\x7d y\x7ba\x7d z".data) = p ++ (lbraceChar :: m ++ [rbraceChar]) ++ s →
        m ≠ [] → rbraceChar ∉ m → pre.length ≤ p.length :=
  braceSearch_span_selection ("x\x7d y\x7ba\x7d z".data) ("\x7ba\x7d".data) (by rfl)

/-- C6 counterexample: the claim says fields outside the ExtractedJob shape
are dropped from each returned element; on this completion text the
extraction step succeeds and returns its element still carrying the field
named color, which is outside the shape, so no coercion or dropping
happens. -/
theorem extractJobs_keeps_extra_fields :
    extractJobs "[\x7b\"origin\": \"A\", \"color\": \"red\"\x7d]" =
      [Json.obj [("origin", Json.str "A"), ("color", Json.str "red")]] ∧
    isJobShaped (Json.obj [("origin", Json.str "A"), ("color", Json.str "red")]) = false :=
  ⟨rfl, rfl⟩

/-- C6 amended: on success the array extraction step returns the parsed
elements verbatim: an element belongs to the result exactly when it
belongs to the parsed array, so fields missing from a parsed object stay
absent and fields outside the ExtractedJob shape are preserved rather
than dropped, and no validation against that shape happens. -/
theorem extractJobs_elements_verbatim (t : String) (span : List Char) (xs : List Json)
    (hs : bracketSearch t.data = some span)
    (hp : json_loads (String.mk span) = some (Json.arr xs)) :
    ∀ j, j ∈ extractJobs t ↔ j ∈ xs := by
  intro j
  rw [extractJobs, hs]
  simp only [hp]

theorem extractJobs_elements_verbatim_witness :
    Json.obj [("origin", Json.str "A"), ("color", Json.str "red")] ∈
      extractJobs "ok [\x7b\"origin\": \"A\", \"color\": \"red\"\x7d] bye" :=
  (extractJobs_elements_verbatim "ok [\x7b\"origin\": \"A\", \"color\": \"red\"\x7d] bye"
    ("[\x7b\"origin\": \"A\", \"color\": \"red\"\x7d]".data)
    [Json.obj [("origin", Json.str "A"), ("color", Json.str "red")]]
    (by rfl) (by rfl)
    (Json.obj [("origin", Json.str "A"), ("color", Json.str "red")])).mpr (by simp)
